import Mathlib

/-!
A verification development of the hierarchical marker-based cell-type
annotation core of the pegasus single-cell toolkit: the marker taxonomy
(loaded from the declarative mouse-brain definition shipped with the
repository) and the annotation scorer (`scoreCellType` / `annotateCluster`).

The repository snapshot carries the declarative taxonomy data, the API
surface (`infer_cell_types`, `annotate_cluster`) and its documentation, but
not the scorer's implementation; the scorer and loader below are therefore
modelled from the specification, while the mouse-brain taxonomy value is
transcribed from the shipped definition file.
-/

set_option autoImplicit false

namespace Pegasus

/-- The expected regulation direction of a marker gene, encoded in the
source data as a trailing `+`/`-` suffix on the gene symbol. -/
inductive Sign where
  | up
  | down
deriving DecidableEq, Repr

/-- Modelled from the spec: a MarkerSet is one scored piece of evidence —
a collection of (gene name, sign) pairs plus a non-negative weight.
(The optional free-text comment carries no behaviour and is omitted.) -/
structure MarkerSet where
  genes : List (String × Sign)
  weight : ℚ
deriving Repr

/-- Modelled from the spec: a CellType has a name, an ordered sequence of
MarkerSets, and an ordered sequence of subtype CellTypes (empty when the
cell type has no Subtype Group; group titles carry no behaviour). -/
inductive CellType where
  | mk (name : String) (markers : List MarkerSet) (subtypes : List CellType)
deriving Repr

def CellType.name : CellType → String
  | .mk n _ _ => n

def CellType.markers : CellType → List MarkerSet
  | .mk _ ms _ => ms

def CellType.subtypes : CellType → List CellType
  | .mk _ _ subs => subs

/-- Modelled from the spec: a Taxonomy is the root Subtype Group (title
plus ordered sequence of top-level CellTypes). -/
structure Taxonomy where
  title : String
  cellTypes : List CellType
deriving Repr

/-- Modelled from the spec: `topLevelTypes` exposes the root CellTypes in
authored order (the order is significant: it is the scoring tie-break). -/
def topLevelTypes (t : Taxonomy) : List CellType :=
  t.cellTypes

/-- Modelled from the spec: `subtypesOf` exposes the child CellTypes in
authored order, or the empty sequence if none. -/
def subtypesOf (c : CellType) : List CellType :=
  c.subtypes

/-- Modelled from the spec: a ClusterProfile maps gene names to a signed
differential-expression statistic; embedded as an association list with
first-match lookup. -/
abbrev Profile := List (String × ℚ)

/-- Look a gene up in the profile; `none` means the gene carries no
evidence for this cluster. -/
def lookupGene (p : Profile) (g : String) : Option ℚ :=
  p.lookup g

/-- A profile statistic is concordant with a sign annotation when it shows
regulation in the annotated direction. -/
def concordant (v : ℚ) : Sign → Bool
  | .up => decide (0 < v)
  | .down => decide (v < 0)

/-- Modelled from the spec: the per-gene contribution to a marker set's
match value — `1` when the profile statistic is concordant with the
annotated sign, `0` when the gene is missing from the profile or the
statistic is discordant (zero, not a penalty). -/
def geneContrib (p : Profile) (gs : String × Sign) : ℚ :=
  match lookupGene p gs.1 with
  | none => 0
  | some v => if concordant v gs.2 then 1 else 0

/-- Modelled from the spec: a marker set's match value is the fraction of
its genes whose profile statistic is concordant with the annotated sign
(the fraction-matched aggregation, monotone in markers matched). -/
def matchValue (p : Profile) (m : MarkerSet) : ℚ :=
  (m.genes.map (geneContrib p)).sum / (m.genes.length : ℚ)

/-- Modelled from the spec: `scoreCellType` combines the marker-set match
values into one score via the weighted sum Σ(weight·match) / Σ(weight). -/
def scoreCellType (p : Profile) (c : CellType) : ℚ :=
  (c.markers.map fun m => m.weight * matchValue p m).sum
    / (c.markers.map fun m => m.weight).sum

/-- Modelled from the spec: select the maximum-scoring CellType from a
candidate sequence, breaking ties in favour of the earliest candidate in
authored order; `none` only on an empty candidate sequence. -/
def selectBest (p : Profile) : List CellType → Option (CellType × ℚ)
  | [] => none
  | c :: rest =>
    let s := scoreCellType p c
    match selectBest p rest with
    | none => some (c, s)
    | some (b, bs) => if s < bs then some (b, bs) else some (c, s)

/-- Modelled from the spec: recursive subtype resolution. Starting from a
level winner `c` with score `s`, while the winner has subtypes, score them
against the same profile, select with the same tie-break, and descend into
the best subtype when its score meets the configurable minimum-score
threshold `th`; otherwise keep the current winner. Returns the full path
of names from `c` down to the final winner, with the final score. -/
def resolvePath (p : Profile) (th : ℚ) (c : CellType) (s : ℚ) :
    List String × ℚ :=
  match h : selectBest p (subtypesOf c) with
  | none => ([c.name], s)
  | some (b, bs) =>
    if th ≤ bs then
      let r := resolvePath p th b bs
      (c.name :: r.1, r.2)
    else ([c.name], s)
termination_by sizeOf c
decreasing_by
  have hmem : ∀ (l : List CellType) (b' : CellType) (bs' : ℚ),
      selectBest p l = some (b', bs') → b' ∈ l := by
    intro l
    induction l with
    | nil => intro b' bs' hb; simp [selectBest] at hb
    | cons hd tl ih =>
      intro b' bs' hb
      simp only [selectBest] at hb
      cases htl : selectBest p tl with
      | none =>
        rw [htl] at hb
        simp only [Option.some.injEq, Prod.mk.injEq] at hb
        exact hb.1 ▸ List.mem_cons_self hd tl
      | some pr =>
        rw [htl] at hb
        by_cases hlt : scoreCellType p hd < pr.2
        · simp only [hlt, if_pos] at hb
          have : b' ∈ tl := by
            have := ih pr.1 pr.2 (by rw [htl])
            cases hb
            exact this
          exact List.mem_cons_of_mem hd this
        · simp only [hlt, if_neg, not_false_iff] at hb
          simp only [Option.some.injEq, Prod.mk.injEq] at hb
          exact hb.1 ▸ List.mem_cons_self hd tl
  have hb : b ∈ subtypesOf c := hmem _ _ _ h
  have h1 : sizeOf b < sizeOf (subtypesOf c) := List.sizeOf_lt_of_mem hb
  cases c with
  | mk n ms subs =>
    simp only [subtypesOf, CellType.subtypes] at h1
    simp only [CellType.mk.sizeOf_spec]
    omega

/-- Modelled from the spec: the per-cluster failure signal — raised when no
gene in the profile matches any marker in the candidate set. -/
inductive AnnotationError where
  | insufficientEvidence
deriving DecidableEq, Repr

/-- Does marker set `m` mention gene `g` (under either sign)? -/
def msMentions (g : String) (m : MarkerSet) : Bool :=
  m.genes.any fun gs => gs.1 == g

mutual

/-- Does cell type `c` (or any of its descendants) mention gene `g`? -/
def ctMentions (g : String) : CellType → Bool
  | .mk _ ms subs => ms.any (msMentions g) || ctsMentions g subs

/-- Does any cell type in the list (or any descendant) mention gene `g`? -/
def ctsMentions (g : String) : List CellType → Bool
  | [] => false
  | c :: rest => ctMentions g c || ctsMentions g rest

end

/-- Does any gene of the profile match (by name) any marker of any
CellType in the candidate set, at any level of the hierarchy? -/
def hasEvidence (p : Profile) (cands : List CellType) : Bool :=
  p.any fun gv => ctsMentions gv.1 cands

/-- Modelled from the spec: `annotateCluster` scores every top-level
CellType of the taxonomy against the cluster's profile, selects the best
with the authored-order tie-break, resolves subtypes under the minimum
score threshold `th`, and emits the full name path with the final score;
it signals `InsufficientEvidence` when no gene in the profile matches any
marker in the candidate set (in particular for the empty profile). -/
def annotateCluster (p : Profile) (t : Taxonomy) (th : ℚ) :
    Except AnnotationError (List String × ℚ) :=
  if hasEvidence p (topLevelTypes t) then
    match selectBest p (topLevelTypes t) with
    | none => .error .insufficientEvidence
    | some (w, s) => .ok (resolvePath p th w s)
  else .error .insufficientEvidence

/-! ### Taxonomy loading from the declarative definition -/

/-- A raw marker-set entry of the declarative definition: gene symbols
still carrying their `+`/`-` sign suffix, plus a weight. -/
structure RawMarkerSet where
  genes : List String
  weight : ℚ
deriving Repr

/-- A raw cell-type entry of the declarative definition: name, marker
sets, and an optional subtypes group given by its title and its member
cell types in authored order (`subsTitle = none` encodes the absence of a
subtypes group, in which case `subtypes` is empty; `some title` with an
empty `subtypes` list encodes an authored empty group). -/
inductive RawCellType where
  | mk (name : String) (markers : List RawMarkerSet)
      (subsTitle : Option String) (subtypes : List RawCellType)

/-- The root of a declarative taxonomy definition: a title plus the
top-level cell-type entries, in authored order. -/
structure RawTaxonomy where
  title : String
  cellTypes : List RawCellType

/-- Modelled from the spec: the taxonomy-loading failure, fatal to the
load call and reported with context naming the offending entry. -/
inductive LoadError where
  | malformedTaxonomy (context : String)
deriving Repr

/-- Did a load step fail? -/
def failed {α : Type} : Except LoadError α → Bool
  | Except.error _ => true
  | Except.ok _ => false

/-- Split a raw gene symbol into its name and sign; `none` when the entry
lacks a sign suffix. -/
def parseGene (g : String) : Option (String × Sign) :=
  match g.data.getLast? with
  | some '+' => some (⟨g.data.dropLast⟩, Sign.up)
  | some '-' => some (⟨g.data.dropLast⟩, Sign.down)
  | _ => none

/-- Parse a list of raw gene symbols, failing on the first entry lacking a
sign suffix. -/
def parseGenes : List String → Option (List (String × Sign))
  | [] => some []
  | g :: rest =>
    match parseGene g with
    | none => none
    | some gs =>
      match parseGenes rest with
      | none => none
      | some rest' => some (gs :: rest')

/-- Parse one raw marker set, rejecting unsigned gene entries and negative
weights. -/
def loadMarkerSet (m : RawMarkerSet) : Except LoadError MarkerSet :=
  if m.weight < 0 then
    Except.error (LoadError.malformedTaxonomy "negative weight")
  else
    match parseGenes m.genes with
    | none => Except.error (LoadError.malformedTaxonomy "unsigned gene entry")
    | some gs => Except.ok ⟨gs, m.weight⟩

/-- Parse a list of raw marker sets, failing on the first malformed one. -/
def loadMarkerSets : List RawMarkerSet → Except LoadError (List MarkerSet)
  | [] => Except.ok []
  | m :: rest =>
    match loadMarkerSet m with
    | Except.error e => Except.error e
    | Except.ok m' =>
      match loadMarkerSets rest with
      | Except.error e => Except.error e
      | Except.ok rest' => Except.ok (m' :: rest')

mutual

/-- Modelled from the spec: load one raw cell type, validating its marker
sets and its subtypes group (which must be non-empty when present). -/
def loadCellType : RawCellType → Except LoadError CellType
  | .mk name markers subsTitle subtypes =>
    match loadMarkerSets markers with
    | Except.error e => Except.error e
    | Except.ok ms =>
      match subsTitle with
      | none => Except.ok (CellType.mk name ms [])
      | some t =>
        if subtypes.isEmpty then
          Except.error (LoadError.malformedTaxonomy t)
        else
          match loadCellTypes subtypes with
          | Except.error e => Except.error e
          | Except.ok cs => Except.ok (CellType.mk name ms cs)

/-- Load a list of raw cell types, failing on the first malformed one. -/
def loadCellTypes : List RawCellType → Except LoadError (List CellType)
  | [] => Except.ok []
  | c :: rest =>
    match loadCellType c with
    | Except.error e => Except.error e
    | Except.ok c' =>
      match loadCellTypes rest with
      | Except.error e => Except.error e
      | Except.ok rest' => Except.ok (c' :: rest')

end

/-- Modelled from the spec: `load` turns a declarative definition (the
root group) into an immutable Taxonomy, failing with `MalformedTaxonomy`
on an unsigned gene entry, a negative weight, or an empty subtype group
(the root group included); it is a pure function, so a failed load yields
no partial Taxonomy. -/
def load (d : RawTaxonomy) : Except LoadError Taxonomy :=
  if d.cellTypes.isEmpty then
    Except.error (LoadError.malformedTaxonomy d.title)
  else
    match loadCellTypes d.cellTypes with
    | Except.error e => Except.error e
    | Except.ok cts => Except.ok ⟨d.title, cts⟩

/-- Is this raw marker set malformed (unsigned gene entry or negative
weight)? -/
def msMalformed (m : RawMarkerSet) : Bool :=
  decide (m.weight < 0) || m.genes.any fun g => (parseGene g).isNone

mutual

/-- Is this raw cell type malformed anywhere (an unsigned gene entry, a
negative weight, or an empty subtypes group)? -/
def ctMalformed : RawCellType → Bool
  | .mk _ markers subsTitle subtypes =>
    markers.any msMalformed ||
      match subsTitle with
      | none => false
      | some _ => subtypes.isEmpty || ctsMalformed subtypes

/-- Is any raw cell type of the list malformed? -/
def ctsMalformed : List RawCellType → Bool
  | [] => false
  | c :: rest => ctMalformed c || ctsMalformed rest

end

/-- Is the raw definition malformed anywhere (an empty root group, or a
malformed entry below it)? -/
def taxMalformed (d : RawTaxonomy) : Bool :=
  d.cellTypes.isEmpty || ctsMalformed d.cellTypes

/-! ### The shipped mouse-brain marker taxonomy definition

Transcribed from the repository's "Mouse brain cell markers" definition
file: same titles, names, gene entries (sign suffixes included), weights
and authored order. -/

/-- A raw cell type with a single marker set and no subtypes group. -/
def rawLeaf (name : String) (genes : List String) (w : ℚ) : RawCellType :=
  RawCellType.mk name [⟨genes, w⟩] none []

/-- The members of the "Glutamatergic neuron subtype markers" group. -/
def glutamatergicSubtypes : List RawCellType :=
    [ rawLeaf "Glutamatergic layer 2/3 IT" ["Cux2+"] 1
    , rawLeaf "Glutamatergic layer 4/5 IT" ["Rorb+"] 1
    , rawLeaf "Glutamatergic layer 5 IT" ["Sulf2+", "Fezf2+"] 1
    , rawLeaf "Glutamatergic layer 6 IT" ["Sulf1+", "Ptpru+"] 1
    , rawLeaf "Glutamatergic layer 6 IT Car3" ["Sulf1+", "Ptpru+", "Car3+"] 1
    , rawLeaf "Glutamatergic layer 5 ET" ["Fam84b+"] 1
    , rawLeaf "Glutamatergic layer 6 CT" ["Syt6+", "Foxp2+"] 1
    , rawLeaf "Glutamatergic layer 6b" ["Nxph4+"] 1
    , rawLeaf "Glutamatergic layer L56 NP" ["Tshz2+"] 1 ]

/-- The members of the "GABAergic neuron subtype markers" group. -/
def gabaergicSubtypes : List RawCellType :=
    [ rawLeaf "GABAergic Pvalb interneuron" ["Pvalb+"] 1
    , rawLeaf "GABAergic Sst interneuron" ["Sst+", "Grin3a+"] 1
    , rawLeaf "GABAergic Vip interneuron" ["Vip+"] 1
    , rawLeaf "GABAergic Sncg interneuron" ["Sncg+"] 1
    , rawLeaf "GABAergic Ndnf interneuron" ["Ndnf+"] 1
    , rawLeaf "GABAergic Lamp5 interneuron" ["Lamp5+"] 1 ]

/-- The shipped "Mouse brain cell markers" taxonomy definition. -/
def mouseBrainMarkers : RawTaxonomy :=
  RawTaxonomy.mk "Mouse brain cell markers"
    [ RawCellType.mk "Glutamatergic neuron"
        [⟨["Slc17a7+", "Slc17a6+", "Neurod6+", "Neurod2+"], 1⟩]
        (some "Glutamatergic neuron subtype markers") glutamatergicSubtypes
    , RawCellType.mk "GABAergic neuron"
        [⟨["Gad1+", "Gad2+", "Slc32a1+"], 1⟩]
        (some "GABAergic neuron subtype markers") gabaergicSubtypes
    , RawCellType.mk "Oligodendrocyte"
        [ ⟨["Mbp+", "Plp1+"], mkRat 3 5⟩
        , ⟨["Mog+"], mkRat 3 20⟩
        , ⟨["Olig1+", "Olig2+", "Sox10+"], mkRat 1 4⟩ ]
        none []
    , rawLeaf "OPC" ["Pdgfra+", "Cspg4+"] 1
    , rawLeaf "Astrocyte" ["Aqp4+", "Gja1+", "F3+", "Prex2+"] 1
    , rawLeaf "Microglia" ["C1qb+", "P2ry12+", "Ctss+", "Csf1r+", "Hmha1+"] 1
    , rawLeaf "Endothelial" ["Flt1+", "Dcn+", "Xdh+", "Id1+"] 1
    , rawLeaf "Fibroblast" ["Igfbp1+", "Dcn+"] 1
    , rawLeaf "Mural" ["Rgs5+", "Acta2+"] 1
    , rawLeaf "Choroid Coch" ["Tgfbi+"] 1
    , rawLeaf "Ependyma" ["Ccdc153+"] 1
    , rawLeaf "Smooth muscle cell" ["Vtn+", "Colec12+"] 1 ]

/-- Is every gene entry of the raw marker set signed with an explicit
`+` suffix? -/
def msAllPlus (m : RawMarkerSet) : Bool :=
  m.genes.all fun g =>
    match parseGene g with
    | some (_, Sign.up) => true
    | _ => false

/-- Is every weight of the raw marker set non-negative? -/
def msWeightOk (m : RawMarkerSet) : Bool :=
  decide (0 ≤ m.weight)

mutual

/-- Does every gene entry below this raw cell type carry a `+` suffix? -/
def ctAllPlus : RawCellType → Bool
  | .mk _ markers _ subtypes =>
    markers.all msAllPlus && ctsAllPlus subtypes

/-- Does every gene entry of the listed cell types carry a `+` suffix? -/
def ctsAllPlus : List RawCellType → Bool
  | [] => true
  | c :: rest => ctAllPlus c && ctsAllPlus rest

end

/-- Does every gene entry of the definition carry a `+` suffix? -/
def taxAllPlus (d : RawTaxonomy) : Bool :=
  ctsAllPlus d.cellTypes

mutual

/-- Are all weights below this raw cell type non-negative, and every
subtypes group non-empty? -/
def ctWellFormed : RawCellType → Bool
  | .mk _ markers subsTitle subtypes =>
    markers.all msWeightOk &&
      (match subsTitle with
       | none => true
       | some _ => !subtypes.isEmpty) &&
      ctsWellFormed subtypes

/-- Are all listed cell types well-formed? -/
def ctsWellFormed : List RawCellType → Bool
  | [] => true
  | c :: rest => ctWellFormed c && ctsWellFormed rest

end

/-- Is the whole definition well-formed: a non-empty root group, all
weights non-negative, and every subtypes group non-empty? -/
def taxWellFormed (d : RawTaxonomy) : Bool :=
  !d.cellTypes.isEmpty && ctsWellFormed d.cellTypes

/-! ### Concrete fixtures for the spec's test scenarios -/

/-- The shipped Oligodendrocyte entry (three weighted marker sets, no
subtypes), as authored in the definition file. -/
def oligodendrocyteRaw : RawCellType :=
  RawCellType.mk "Oligodendrocyte"
    [ ⟨["Mbp+", "Plp1+"], mkRat 3 5⟩
    , ⟨["Mog+"], mkRat 3 20⟩
    , ⟨["Olig1+", "Olig2+", "Sox10+"], mkRat 1 4⟩ ]
    none []

/-- The Oligodendrocyte CellType after loading: sign suffixes parsed into
explicit sign fields. -/
def oligodendrocyte : CellType :=
  CellType.mk "Oligodendrocyte"
    [ ⟨[("Mbp", Sign.up), ("Plp1", Sign.up)], mkRat 3 5⟩
    , ⟨[("Mog", Sign.up)], mkRat 3 20⟩
    , ⟨[("Olig1", Sign.up), ("Olig2", Sign.up), ("Sox10", Sign.up)], mkRat 1 4⟩ ]
    []

/-- A profile fully matching the first Oligodendrocyte marker set and
carrying no data for any other marker gene. -/
def oligoProfile : Profile :=
  [("Mbp", 2), ("Plp1", 1)]

/-- The two-type scenario: Oligodendrocyte with markers Mbp+, Plp1+ at
weight 1. -/
def oligoTwoType : CellType :=
  CellType.mk "Oligodendrocyte" [⟨[("Mbp", Sign.up), ("Plp1", Sign.up)], 1⟩] []

/-- The two-type scenario: Microglia with markers C1qb+, P2ry12+ at
weight 1. -/
def microgliaTwoType : CellType :=
  CellType.mk "Microglia" [⟨[("C1qb", Sign.up), ("P2ry12", Sign.up)], 1⟩] []

/-- The two-type taxonomy of the spec's first concrete scenario. -/
def twoTypeTaxonomy : Taxonomy :=
  ⟨"two-type", [oligoTwoType, microgliaTwoType]⟩

/-- The profile of the spec's first concrete scenario:
{Mbp: +2.0, Plp1: +1.5, C1qb: -0.5}. -/
def twoTypeProfile : Profile :=
  [("Mbp", 2), ("Plp1", mkRat 3 2), ("C1qb", mkRat (-1) 2)]

/-! ### General lemmas -/

theorem selectBest_eq_none (p : Profile) (l : List CellType) :
    selectBest p l = none ↔ l = [] := by
  cases l with
  | nil => simp [selectBest]
  | cons c rest =>
    simp only [selectBest]
    cases hsb : selectBest p rest with
    | none => simp
    | some pr =>
      obtain ⟨b, bs⟩ := pr
      by_cases hlt : scoreCellType p c < bs <;> simp [hlt]

theorem selectBest_sound (p : Profile) (l : List CellType) (b : CellType)
    (s : ℚ) (h : selectBest p l = some (b, s)) :
    b ∈ l ∧ scoreCellType p b = s ∧ ∀ c ∈ l, scoreCellType p c ≤ s := by
  induction l generalizing b s with
  | nil => simp [selectBest] at h
  | cons c rest ih =>
    simp only [selectBest] at h
    cases hsb : selectBest p rest with
    | none =>
      rw [hsb] at h
      simp only [Option.some.injEq, Prod.mk.injEq] at h
      obtain ⟨rfl, rfl⟩ := h
      have : rest = [] := (selectBest_eq_none p rest).mp hsb
      subst this
      exact ⟨List.mem_cons_self _ _, rfl, by simp⟩
    | some pr =>
      obtain ⟨b', bs'⟩ := pr
      rw [hsb] at h
      dsimp only at h
      obtain ⟨hmem, hscore, hle⟩ := ih b' bs' hsb
      by_cases hlt : scoreCellType p c < bs'
      · rw [if_pos hlt] at h
        simp only [Option.some.injEq, Prod.mk.injEq] at h
        obtain ⟨rfl, rfl⟩ := h
        refine ⟨List.mem_cons_of_mem _ hmem, hscore, ?_⟩
        intro x hx
        rcases List.mem_cons.mp hx with rfl | hx'
        · exact le_of_lt hlt
        · exact hle x hx'
      · rw [if_neg hlt] at h
        simp only [Option.some.injEq, Prod.mk.injEq] at h
        obtain ⟨rfl, rfl⟩ := h
        refine ⟨List.mem_cons_self _ _, rfl, ?_⟩
        intro x hx
        rcases List.mem_cons.mp hx with rfl | hx'
        · exact le_refl _
        · exact le_trans (hle x hx') (not_lt.mp hlt)

theorem resolvePath_eq (p : Profile) (th : ℚ) (c : CellType) (s : ℚ) :
    resolvePath p th c s =
      match selectBest p (subtypesOf c) with
      | none => ([c.name], s)
      | some (b, bs) =>
        if th ≤ bs then
          (c.name :: (resolvePath p th b bs).1, (resolvePath p th b bs).2)
        else ([c.name], s) := by
  rw [resolvePath]
  split <;> rename_i heq <;> simp [heq]

theorem hasEvidence_nil_cands (p : Profile) : hasEvidence p [] = false := by
  simp [hasEvidence, ctsMentions]

theorem geneContrib_nonneg (p : Profile) (gs : String × Sign) :
    0 ≤ geneContrib p gs := by
  unfold geneContrib
  split
  · exact le_refl 0
  · split <;> norm_num

theorem geneContrib_le_one (p : Profile) (gs : String × Sign) :
    geneContrib p gs ≤ 1 := by
  unfold geneContrib
  split
  · norm_num
  · split <;> norm_num

theorem matchValue_nonneg (p : Profile) (m : MarkerSet) :
    0 ≤ matchValue p m := by
  unfold matchValue
  apply div_nonneg
  · apply List.sum_nonneg
    intro x hx
    obtain ⟨gs, _, rfl⟩ := List.mem_map.mp hx
    exact geneContrib_nonneg p gs
  · exact Nat.cast_nonneg _

theorem sum_map_one_eq_length (l : List (String × Sign)) :
    (l.map fun _ => (1 : ℚ)).sum = (l.length : ℚ) := by
  induction l with
  | nil => simp
  | cons x rest ih => simp [ih]; ring

theorem matchValue_le_one (p : Profile) (m : MarkerSet) :
    matchValue p m ≤ 1 := by
  unfold matchValue
  rcases Nat.eq_zero_or_pos m.genes.length with h0 | hpos
  · simp [h0]
  · have hlen : (0 : ℚ) < (m.genes.length : ℚ) := by exact_mod_cast hpos
    rw [div_le_one hlen]
    calc (m.genes.map (geneContrib p)).sum
        ≤ (m.genes.map fun _ => (1 : ℚ)).sum := by
          apply List.sum_le_sum
          intro x _
          exact geneContrib_le_one p x
      _ = (m.genes.length : ℚ) := sum_map_one_eq_length m.genes

theorem lookupGene_cons_fresh (p : Profile) (g x : String) (v : ℚ)
    (hne : x ≠ g) : lookupGene ((g, v) :: p) x = lookupGene p x := by
  have hb : (x == g) = false := beq_eq_false_iff_ne.mpr hne
  simp [lookupGene, List.lookup, hb]

theorem geneContrib_extend (p : Profile) (g : String) (v : ℚ)
    (hfresh : lookupGene p g = none) (gs : String × Sign) :
    geneContrib p gs ≤ geneContrib ((g, v) :: p) gs := by
  by_cases hx : gs.1 = g
  · have h0 : geneContrib p gs = 0 := by
      unfold geneContrib
      rw [hx, hfresh]
    rw [h0]
    exact geneContrib_nonneg _ gs
  · unfold geneContrib
    rw [lookupGene_cons_fresh p g gs.1 v hx]

theorem matchValue_extend (p : Profile) (g : String) (v : ℚ)
    (hfresh : lookupGene p g = none) (m : MarkerSet) :
    matchValue p m ≤ matchValue ((g, v) :: p) m := by
  unfold matchValue
  apply div_le_div_of_nonneg_right ?_ (Nat.cast_nonneg _)
  apply List.sum_le_sum
  intro gs _
  exact geneContrib_extend p g v hfresh gs

theorem weighted_sum_le (l : List MarkerSet) (f : MarkerSet → ℚ) (hi : ℚ)
    (hw : ∀ m ∈ l, 0 ≤ m.weight) (hf : ∀ m ∈ l, f m ≤ hi) :
    (l.map fun m => m.weight * f m).sum ≤ hi * (l.map fun m => m.weight).sum := by
  induction l with
  | nil => simp
  | cons m rest ih =>
    simp only [List.map_cons, List.sum_cons, mul_add]
    have h1 : m.weight * f m ≤ hi * m.weight := by
      rw [mul_comm hi m.weight]
      exact mul_le_mul_of_nonneg_left (hf m (List.mem_cons_self _ _))
        (hw m (List.mem_cons_self _ _))
    have h2 := ih (fun x hx => hw x (List.mem_cons_of_mem _ hx))
      (fun x hx => hf x (List.mem_cons_of_mem _ hx))
    exact add_le_add h1 h2

theorem le_weighted_sum (l : List MarkerSet) (f : MarkerSet → ℚ) (lo : ℚ)
    (hw : ∀ m ∈ l, 0 ≤ m.weight) (hf : ∀ m ∈ l, lo ≤ f m) :
    lo * (l.map fun m => m.weight).sum ≤ (l.map fun m => m.weight * f m).sum := by
  induction l with
  | nil => simp
  | cons m rest ih =>
    simp only [List.map_cons, List.sum_cons, mul_add]
    have h1 : lo * m.weight ≤ m.weight * f m := by
      rw [mul_comm lo m.weight]
      exact mul_le_mul_of_nonneg_left (hf m (List.mem_cons_self _ _))
        (hw m (List.mem_cons_self _ _))
    have h2 := ih (fun x hx => hw x (List.mem_cons_of_mem _ hx))
      (fun x hx => hf x (List.mem_cons_of_mem _ hx))
    exact add_le_add h1 h2

theorem weight_sum_nonneg (l : List MarkerSet) (hw : ∀ m ∈ l, 0 ≤ m.weight) :
    0 ≤ (l.map fun m => m.weight).sum := by
  apply List.sum_nonneg
  intro x hx
  obtain ⟨m, hm, rfl⟩ := List.mem_map.mp hx
  exact hw m hm

theorem parseGenes_isNone (l : List String) :
    (parseGenes l).isNone = l.any fun g => (parseGene g).isNone := by
  induction l with
  | nil => simp [parseGenes]
  | cons g rest ih =>
    simp only [parseGenes, List.any_cons]
    cases hpg : parseGene g with
    | none => simp [hpg]
    | some gs =>
      cases hr : parseGenes rest with
      | none => simp [hpg, hr] at ih ⊢; exact ih
      | some rest' => simp [hpg, hr] at ih ⊢; exact ih

theorem loadMarkerSet_isError (m : RawMarkerSet) :
    failed (loadMarkerSet m) = msMalformed m := by
  unfold loadMarkerSet msMalformed
  by_cases hw : m.weight < 0
  · simp [hw, failed]
  · have hpg := parseGenes_isNone m.genes
    cases hg : parseGenes m.genes with
    | none => simp [hw, hg, failed, ← hpg, hg]
    | some gs => simp [hw, hg, failed, ← hpg, hg]

theorem loadMarkerSets_isError (l : List RawMarkerSet) :
    failed (loadMarkerSets l) = l.any msMalformed := by
  induction l with
  | nil => rfl
  | cons m rest ih =>
    simp only [loadMarkerSets, List.any_cons]
    cases hms : loadMarkerSet m with
    | error e =>
      have hm : msMalformed m = true := by rw [← loadMarkerSet_isError m, hms]; rfl
      rw [hm, Bool.true_or]
      rfl
    | ok m' =>
      have hm : msMalformed m = false := by rw [← loadMarkerSet_isError m, hms]; rfl
      rw [hm, Bool.false_or]
      cases hrest : loadMarkerSets rest with
      | error e =>
        have hr : rest.any msMalformed = true := by rw [← ih, hrest]; rfl
        rw [hr]
        rfl
      | ok rest' =>
        have hr : rest.any msMalformed = false := by rw [← ih, hrest]; rfl
        rw [hr]
        rfl

theorem load_isError_bounded : ∀ n : Nat,
    (∀ c : RawCellType, sizeOf c ≤ n → failed (loadCellType c) = ctMalformed c) ∧
    (∀ l : List RawCellType, sizeOf l ≤ n →
      failed (loadCellTypes l) = ctsMalformed l) := by
  intro n
  induction n with
  | zero =>
    constructor
    · intro c hc
      exfalso
      cases c with
      | mk name markers subsTitle subtypes =>
        simp only [RawCellType.mk.sizeOf_spec] at hc
        omega
    · intro l hl
      exfalso
      cases l with
      | nil => simp only [List.nil.sizeOf_spec] at hl; omega
      | cons c rest =>
        simp only [List.cons.sizeOf_spec] at hl
        omega
  | succ n ih =>
    obtain ⟨ihc, ihl⟩ := ih
    constructor
    · intro c hc
      cases c with
      | mk name markers subsTitle subtypes =>
        simp only [RawCellType.mk.sizeOf_spec] at hc
        simp only [loadCellType, ctMalformed]
        cases h1 : loadMarkerSets markers with
        | error e =>
          have hm : markers.any msMalformed = true := by
            rw [← loadMarkerSets_isError markers, h1]; rfl
          rw [hm, Bool.true_or]
          rfl
        | ok ms =>
          have hm : markers.any msMalformed = false := by
            rw [← loadMarkerSets_isError markers, h1]; rfl
          rw [hm, Bool.false_or]
          cases subsTitle with
          | none => rfl
          | some t =>
            dsimp only
            by_cases hemp : subtypes.isEmpty = true
            · rw [if_pos hemp, hemp, Bool.true_or]
              rfl
            · have hemp' : subtypes.isEmpty = false :=
                Bool.not_eq_true _ ▸ Bool.of_not_eq_true hemp
              rw [if_neg hemp, hemp', Bool.false_or]
              have hsz : sizeOf subtypes ≤ n := by
                simp only [Option.some.sizeOf_spec] at hc
                omega
              have hleq := ihl subtypes hsz
              cases h2 : loadCellTypes subtypes with
              | error e =>
                have hcm : ctsMalformed subtypes = true := by
                  rw [← hleq, h2]; rfl
                rw [hcm]
                rfl
              | ok cs =>
                have hcm : ctsMalformed subtypes = false := by
                  rw [← hleq, h2]; rfl
                rw [hcm]
                rfl
    · intro l hl
      cases l with
      | nil => rfl
      | cons c rest =>
        simp only [List.cons.sizeOf_spec] at hl
        simp only [loadCellTypes, ctsMalformed]
        have hceq := ihc c (by omega)
        cases h1 : loadCellType c with
        | error e =>
          have hc : ctMalformed c = true := by rw [← hceq, h1]; rfl
          rw [hc, Bool.true_or]
          rfl
        | ok c' =>
          have hc : ctMalformed c = false := by rw [← hceq, h1]; rfl
          rw [hc, Bool.false_or]
          have hreq := ihl rest (by omega)
          cases h2 : loadCellTypes rest with
          | error e =>
            have hr : ctsMalformed rest = true := by rw [← hreq, h2]; rfl
            rw [hr]
            rfl
          | ok rest' =>
            have hr : ctsMalformed rest = false := by rw [← hreq, h2]; rfl
            rw [hr]
            rfl

theorem loadCellType_isError (c : RawCellType) :
    failed (loadCellType c) = ctMalformed c :=
  (load_isError_bounded (sizeOf c)).1 c le_rfl

theorem loadCellTypes_isError (l : List RawCellType) :
    failed (loadCellTypes l) = ctsMalformed l :=
  (load_isError_bounded (sizeOf l)).2 l le_rfl

theorem load_isError (d : RawTaxonomy) :
    failed (load d) = taxMalformed d := by
  simp only [load, taxMalformed]
  by_cases hemp : d.cellTypes.isEmpty = true
  · rw [if_pos hemp, hemp, Bool.true_or]
    rfl
  · have hemp' : d.cellTypes.isEmpty = false :=
      Bool.not_eq_true _ ▸ Bool.of_not_eq_true hemp
    rw [if_neg hemp, hemp', Bool.false_or]
    cases h1 : loadCellTypes d.cellTypes with
    | error e =>
      have hm : ctsMalformed d.cellTypes = true := by
        rw [← loadCellTypes_isError d.cellTypes, h1]; rfl
      rw [hm]
      rfl
    | ok cts' =>
      have hm : ctsMalformed d.cellTypes = false := by
        rw [← loadCellTypes_isError d.cellTypes, h1]; rfl
      rw [hm]
      rfl

/-! ### Claim theorems -/

/-- C1: `annotateCluster` is a pure function of `(profile, taxonomy)` (and
the threshold): two independent calls with identical inputs return
identical AnnotationResults — same chosen name path and same numeric
score — with no retained state between calls. -/
theorem annotateCluster_deterministic (p₁ p₂ : Profile) (t₁ t₂ : Taxonomy)
    (th₁ th₂ : ℚ) (hp : p₁ = p₂) (ht : t₁ = t₂) (hth : th₁ = th₂) :
    annotateCluster p₁ t₁ th₁ = annotateCluster p₂ t₂ th₂ := by
  subst hp; subst ht; subst hth; rfl

/-- Witness for C1 at a concrete input. -/
theorem annotateCluster_deterministic_witness :
    annotateCluster twoTypeProfile twoTypeTaxonomy 0 =
      annotateCluster twoTypeProfile twoTypeTaxonomy 0 :=
  annotateCluster_deterministic twoTypeProfile twoTypeProfile
    twoTypeTaxonomy twoTypeTaxonomy 0 0 rfl rfl rfl

/-- C2: every selection step (`selectBest`, applied by `annotateCluster` to
the sequences exposed by `topLevelTypes` and `subtypesOf`) returns a
maximum-scoring CellType, and on ties the earliest candidate in authored
order: the winner sits at an index all of whose predecessors score
strictly lower, and no candidate scores higher. -/
theorem selectBest_max_earliest (p : Profile) (l : List CellType)
    (b : CellType) (s : ℚ) (h : selectBest p l = some (b, s)) :
    scoreCellType p b = s ∧ (∀ c ∈ l, scoreCellType p c ≤ s) ∧
    ∃ i, ∃ hi : i < l.length, l.get ⟨i, hi⟩ = b ∧
      ∀ c ∈ l.take i, scoreCellType p c < s := by
  induction l generalizing b s with
  | nil => simp [selectBest] at h
  | cons c rest ih =>
    simp only [selectBest] at h
    cases hsb : selectBest p rest with
    | none =>
      rw [hsb] at h
      dsimp only at h
      simp only [Option.some.injEq, Prod.mk.injEq] at h
      obtain ⟨rfl, rfl⟩ := h
      have hrest : rest = [] := (selectBest_eq_none p rest).mp hsb
      subst hrest
      exact ⟨rfl, by simp, 0, by simp, rfl, by simp⟩
    | some pr =>
      obtain ⟨b', bs'⟩ := pr
      rw [hsb] at h
      dsimp only at h
      obtain ⟨hmem', hscore', hle'⟩ := selectBest_sound p rest b' bs' hsb
      by_cases hlt : scoreCellType p c < bs'
      · rw [if_pos hlt] at h
        simp only [Option.some.injEq, Prod.mk.injEq] at h
        obtain ⟨rfl, rfl⟩ := h
        obtain ⟨hbs, hles, i, hi, hget, htake⟩ := ih b' bs' hsb
        refine ⟨hbs, ?_, i + 1, by simpa using Nat.succ_lt_succ hi, by simpa using hget, ?_⟩
        · intro x hx
          rcases List.mem_cons.mp hx with rfl | hx'
          · exact le_of_lt hlt
          · exact hles x hx'
        · intro x hx
          rw [List.take_succ_cons] at hx
          rcases List.mem_cons.mp hx with rfl | hx'
          · exact hlt
          · exact htake x hx'
      · rw [if_neg hlt] at h
        simp only [Option.some.injEq, Prod.mk.injEq] at h
        obtain ⟨rfl, rfl⟩ := h
        refine ⟨rfl, ?_, 0, by simp, rfl, by simp⟩
        intro x hx
        rcases List.mem_cons.mp hx with rfl | hx'
        · exact le_refl _
        · exact le_trans (hle' x hx') (not_lt.mp hlt)

/-- Witness for C2 at a concrete input: a singleton candidate list. -/
theorem selectBest_max_earliest_witness :
    scoreCellType twoTypeProfile oligoTwoType =
        scoreCellType twoTypeProfile oligoTwoType ∧
      (∀ c ∈ [oligoTwoType], scoreCellType twoTypeProfile c ≤
        scoreCellType twoTypeProfile oligoTwoType) ∧
      ∃ i, ∃ hi : i < [oligoTwoType].length,
        [oligoTwoType].get ⟨i, hi⟩ = oligoTwoType ∧
        ∀ c ∈ [oligoTwoType].take i,
          scoreCellType twoTypeProfile c <
            scoreCellType twoTypeProfile oligoTwoType :=
  selectBest_max_earliest twoTypeProfile [oligoTwoType] oligoTwoType
    (scoreCellType twoTypeProfile oligoTwoType) rfl

/-- C3: subtype resolution. When the current winner has no subtypes the
recursion stops with the winner's name and score; when it has subtypes,
the best subtype (same scoring, same tie-break) is descended into exactly
when its score meets the minimum-score threshold, prefixing the winner's
name onto the full path of the recursive result and keeping its final
score; when no subtype meets the threshold the parent-level winner is
kept. -/
theorem resolvePath_recursion (p : Profile) (th : ℚ) (c : CellType) (s : ℚ) :
    (c.subtypes = [] → resolvePath p th c s = ([c.name], s)) ∧
    (∀ b bs, selectBest p (subtypesOf c) = some (b, bs) →
      (th ≤ bs →
        resolvePath p th c s =
          (c.name :: (resolvePath p th b bs).1, (resolvePath p th b bs).2)) ∧
      (bs < th → resolvePath p th c s = ([c.name], s))) ∧
    (c.subtypes ≠ [] → (∀ b ∈ c.subtypes, scoreCellType p b < th) →
      resolvePath p th c s = ([c.name], s)) := by
  refine ⟨?_, ?_, ?_⟩
  · intro hleaf
    rw [resolvePath_eq]
    have : selectBest p (subtypesOf c) = none :=
      (selectBest_eq_none p _).mpr (by rw [subtypesOf, hleaf])
    rw [this]
  · intro b bs hsel
    constructor
    · intro hth
      rw [resolvePath_eq, hsel]
      dsimp only
      rw [if_pos hth]
    · intro hth
      rw [resolvePath_eq, hsel]
      dsimp only
      rw [if_neg (not_le.mpr hth)]
  · intro hne hall
    cases hsel : selectBest p (subtypesOf c) with
    | none =>
      rw [resolvePath_eq, hsel]
    | some pr =>
      obtain ⟨b, bs⟩ := pr
      obtain ⟨hmem, hscore, _⟩ := selectBest_sound p _ b bs hsel
      have hbs : bs < th := hscore ▸ hall b hmem
      rw [resolvePath_eq, hsel]
      dsimp only
      rw [if_neg (not_le.mpr hbs)]

/-- Witness for C3 at a concrete leaf CellType. -/
theorem resolvePath_recursion_witness :
    resolvePath twoTypeProfile 0 oligoTwoType 1 = (["Oligodendrocyte"], 1) :=
  (resolvePath_recursion twoTypeProfile 0 oligoTwoType 1).1 rfl

/-- C4: `annotateCluster` signals InsufficientEvidence — and never an
arbitrarily chosen top-level CellType — exactly when no gene of the
profile matches any marker of any candidate CellType; in particular every
empty profile yields InsufficientEvidence. -/
theorem annotateCluster_insufficientEvidence :
    (∀ (p : Profile) (t : Taxonomy) (th : ℚ),
      annotateCluster p t th =
          Except.error AnnotationError.insufficientEvidence ↔
        hasEvidence p (topLevelTypes t) = false) ∧
    ∀ (t : Taxonomy) (th : ℚ),
      annotateCluster ([] : Profile) t th =
        Except.error AnnotationError.insufficientEvidence := by
  constructor
  · intro p t th
    unfold annotateCluster
    by_cases hev : hasEvidence p (topLevelTypes t) = true
    · rw [if_pos hev]
      constructor
      · intro h
        cases hsel : selectBest p (topLevelTypes t) with
        | none =>
          have hnil : topLevelTypes t = [] := (selectBest_eq_none p _).mp hsel
          rw [hnil, hasEvidence_nil_cands] at hev
          exact absurd hev (by simp)
        | some pr =>
          rw [hsel] at h
          exact absurd h (by simp)
      · intro h
        rw [hev] at h
        exact absurd h (by simp)
    · have hev' : hasEvidence p (topLevelTypes t) = false :=
        Bool.not_eq_true _ ▸ Bool.of_not_eq_true hev
      rw [if_neg hev]
      simp [hev']
  · intro t th
    rfl

/-- Witness for C4 at a concrete profile and taxonomy with no matching
gene. -/
theorem annotateCluster_insufficientEvidence_witness :
    annotateCluster [("Foo", 1)] twoTypeTaxonomy 0 =
      Except.error AnnotationError.insufficientEvidence :=
  (annotateCluster_insufficientEvidence.1 [("Foo", 1)] twoTypeTaxonomy 0).mpr
    (by decide)

/-- C5: `load` fails — with `MalformedTaxonomy` — exactly when the
definition contains a gene entry lacking a sign suffix, a negative weight,
or an empty subtype group; equivalently it succeeds (producing the whole
immutable Taxonomy at once, so no partial load) exactly when none of these
occur. -/
theorem load_fails_iff_malformed (d : RawTaxonomy) :
    ((∃ ctx, load d = Except.error (LoadError.malformedTaxonomy ctx)) ↔
      taxMalformed d = true) ∧
    ((load d).isOk = true ↔ taxMalformed d = false) := by
  have h := load_isError d
  constructor
  · constructor
    · rintro ⟨ctx, hc⟩
      rw [hc] at h
      exact h.symm
    · intro hm
      cases hld : load d with
      | error e =>
        cases e with
        | malformedTaxonomy ctx => exact ⟨ctx, rfl⟩
      | ok t =>
        rw [hld] at h
        rw [hm] at h
        exact absurd h (by simp [failed])
  · constructor
    · intro hok
      cases hld : load d with
      | error e =>
        rw [hld] at hok
        simp [Except.isOk, Except.toBool] at hok
      | ok t =>
        rw [hld] at h
        exact h.symm
    · intro hm
      cases hld : load d with
      | error e =>
        rw [hld] at h
        rw [hm] at h
        simp [failed] at h
      | ok t =>
        rfl

/-- Witness for C5 at a concrete malformed definition (empty root
group). -/
theorem load_fails_iff_malformed_witness :
    ∃ ctx, load (RawTaxonomy.mk "empty" []) =
      Except.error (LoadError.malformedTaxonomy ctx) :=
  (load_fails_iff_malformed (RawTaxonomy.mk "empty" [])).1.mpr (by decide)

/-- C6: a marker gene absent from the profile contributes exactly zero
(not a penalty) to its marker set's match value; consequently, for the
shipped Oligodendrocyte entry (marker sets {Mbp+, Plp1+} weight 0.6,
{Mog+} weight 0.15, {Olig1+, Olig2+, Sox10+} weight 0.25) and a profile
fully matching the first set with no data for any other marker gene, the
score is 0.6 × (full match value 1) / 1.0. -/
theorem geneContrib_missing_zero_oligoScore :
    (∀ (p : Profile) (g : String) (sg : Sign),
      lookupGene p g = none → geneContrib p (g, sg) = 0) ∧
    mouseBrainMarkers.cellTypes[2]? = some oligodendrocyteRaw ∧
    loadCellType oligodendrocyteRaw = Except.ok oligodendrocyte ∧
    matchValue oligoProfile
        ⟨[("Mbp", Sign.up), ("Plp1", Sign.up)], mkRat 3 5⟩ = 1 ∧
    scoreCellType oligoProfile oligodendrocyte = mkRat 3 5 * 1 / 1 := by
  refine ⟨?_, rfl, rfl, ?_, ?_⟩
  · intro p g sg h
    simp [geneContrib, h]
  · simp [matchValue, geneContrib, lookupGene, List.lookup, concordant,
      oligoProfile]
  · have h1 : scoreCellType oligoProfile oligodendrocyte = mkRat 3 5 := by
      simp [scoreCellType, oligodendrocyte, CellType.markers, matchValue,
        geneContrib, lookupGene, List.lookup, concordant, oligoProfile,
        Rat.mkRat_eq_divInt, Rat.divInt_eq_div]
      norm_num
    rw [h1]
    rw [Rat.mkRat_eq_divInt, Rat.divInt_eq_div]
    norm_num

/-- Witness for C6 at a concrete missing gene. -/
theorem geneContrib_missing_zero_oligoScore_witness :
    geneContrib [("Mbp", 2)] ("Foo", Sign.up) = 0 ∧
    scoreCellType oligoProfile oligodendrocyte = mkRat 3 5 * 1 / 1 :=
  ⟨geneContrib_missing_zero_oligoScore.1 [("Mbp", 2)] "Foo" Sign.up rfl,
    geneContrib_missing_zero_oligoScore.2.2.2.2⟩

/-- C7: monotonicity of scoring — extending the profile with a fresh gene
whose statistic is concordant with that gene's sign annotation in one of
the CellType's marker sets never decreases the CellType's score (stated
for well-formed non-negative weights, as `load` guarantees). -/
theorem scoreCellType_concordant_extension_mono (p : Profile)
    (c : CellType) (g : String) (v : ℚ) (sg : Sign)
    (hfresh : lookupGene p g = none)
    (hw : ∀ m ∈ c.markers, 0 ≤ m.weight)
    (hconc : ∃ m ∈ c.markers, (g, sg) ∈ m.genes ∧ concordant v sg = true) :
    scoreCellType p c ≤ scoreCellType ((g, v) :: p) c := by
  unfold scoreCellType
  apply div_le_div_of_nonneg_right ?_ (weight_sum_nonneg c.markers hw)
  apply List.sum_le_sum
  intro m hm
  exact mul_le_mul_of_nonneg_left (matchValue_extend p g v hfresh m)
    (hw m hm)

/-- Witness for C7 at a concrete profile extension. -/
theorem scoreCellType_concordant_extension_mono_witness :
    scoreCellType [] oligoTwoType ≤ scoreCellType [("Mbp", 2)] oligoTwoType :=
  scoreCellType_concordant_extension_mono [] oligoTwoType "Mbp" 2 Sign.up
    rfl (by decide) (by decide)

/-- C8: boundedness of scores — whenever the per-marker-set match values
of a CellType lie in a range `[lo, hi]`, the weighted-sum score
Σ(weight·match)/Σ(weight) lies in the same range (for non-negative
weights with positive sum); in particular, since match values always lie
in `[0, 1]`, the score lies in `[0, 1]` whenever the weights are
non-negative. -/
theorem scoreCellType_bounded (p : Profile) (c : CellType) :
    (∀ lo hi : ℚ, (∀ m ∈ c.markers, 0 ≤ m.weight) →
      0 < (c.markers.map fun m => m.weight).sum →
      (∀ m ∈ c.markers, lo ≤ matchValue p m ∧ matchValue p m ≤ hi) →
      lo ≤ scoreCellType p c ∧ scoreCellType p c ≤ hi) ∧
    ((∀ m ∈ c.markers, 0 ≤ m.weight) →
      0 ≤ scoreCellType p c ∧ scoreCellType p c ≤ 1) := by
  have main : ∀ lo hi : ℚ, (∀ m ∈ c.markers, 0 ≤ m.weight) →
      0 < (c.markers.map fun m => m.weight).sum →
      (∀ m ∈ c.markers, lo ≤ matchValue p m ∧ matchValue p m ≤ hi) →
      lo ≤ scoreCellType p c ∧ scoreCellType p c ≤ hi := by
    intro lo hi hw hpos hm
    unfold scoreCellType
    constructor
    · rw [le_div_iff₀ hpos]
      exact le_weighted_sum c.markers _ lo hw fun m hmm => (hm m hmm).1
    · rw [div_le_iff₀ hpos]
      exact weighted_sum_le c.markers _ hi hw fun m hmm => (hm m hmm).2
  refine ⟨main, ?_⟩
  intro hw
  rcases eq_or_lt_of_le (weight_sum_nonneg c.markers hw) with hz | hpos
  · unfold scoreCellType
    rw [← hz]
    simp
  · exact main 0 1 hw hpos fun m _ =>
      ⟨matchValue_nonneg p m, matchValue_le_one p m⟩

/-- Witness for C8 at a concrete CellType and profile. -/
theorem scoreCellType_bounded_witness :
    0 ≤ scoreCellType twoTypeProfile oligoTwoType ∧
      scoreCellType twoTypeProfile oligoTwoType ≤ 1 :=
  (scoreCellType_bounded twoTypeProfile oligoTwoType).1 0 1 (by decide)
    (by simp [oligoTwoType, CellType.markers])
    (fun m _ => ⟨matchValue_nonneg _ m, matchValue_le_one _ m⟩)

/-- C9: the spec's two-type scenario — taxonomy {Oligodendrocyte (Mbp+,
Plp1+, weight 1), Microglia (C1qb+, P2ry12+, weight 1)}, profile
{Mbp: +2.0, Plp1: +1.5, C1qb: -0.5} — selects Oligodendrocyte (both its
markers concordant and positive, Microglia's only present marker
discordant), and with no subtypes the result is exactly the pair
("Oligodendrocyte", score), the score here being 1 (both markers
matched). -/
theorem annotateCluster_twoTypeScenario (th : ℚ) :
    annotateCluster twoTypeProfile twoTypeTaxonomy th =
      Except.ok (["Oligodendrocyte"], 1) := by
  have ho : scoreCellType twoTypeProfile oligoTwoType = 1 := by
    simp [scoreCellType, oligoTwoType, CellType.markers, matchValue,
      geneContrib, lookupGene, List.lookup, concordant, twoTypeProfile,
      Rat.mkRat_eq_divInt, Rat.divInt_eq_div]
  have hm : scoreCellType twoTypeProfile microgliaTwoType = 0 := by
    simp [scoreCellType, microgliaTwoType, CellType.markers, matchValue,
      geneContrib, lookupGene, List.lookup, concordant, twoTypeProfile,
      Rat.mkRat_eq_divInt, Rat.divInt_eq_div]
  have hsel : selectBest twoTypeProfile [oligoTwoType, microgliaTwoType]
      = some (oligoTwoType, 1) := by
    have hstep : selectBest twoTypeProfile [oligoTwoType, microgliaTwoType]
        = if scoreCellType twoTypeProfile oligoTwoType <
            scoreCellType twoTypeProfile microgliaTwoType
          then some (microgliaTwoType,
            scoreCellType twoTypeProfile microgliaTwoType)
          else some (oligoTwoType,
            scoreCellType twoTypeProfile oligoTwoType) := rfl
    rw [hstep, ho, hm]
    norm_num
  have hev : hasEvidence twoTypeProfile (topLevelTypes twoTypeTaxonomy)
      = true := by decide
  unfold annotateCluster
  rw [if_pos hev]
  have htop : topLevelTypes twoTypeTaxonomy
      = [oligoTwoType, microgliaTwoType] := rfl
  rw [htop, hsel]
  dsimp only
  rw [resolvePath_eq]
  have hnone : selectBest twoTypeProfile (subtypesOf oligoTwoType)
      = none := rfl
  rw [hnone]
  rfl

/-- C10: the shipped mouse-brain marker taxonomy satisfies every load()
validity constraint — every gene entry carries an explicit `+` suffix (no
unsigned and no `-` entries anywhere), every weight is non-negative, and
every subtypes group is non-empty — hence `load` succeeds on it and the
MalformedTaxonomy branch is unreachable for this definition. -/
theorem mouseBrainMarkers_valid :
    taxAllPlus mouseBrainMarkers = true ∧
    taxWellFormed mouseBrainMarkers = true ∧
    taxMalformed mouseBrainMarkers = false ∧
    (load mouseBrainMarkers).isOk = true :=
  ⟨by decide, by decide, by decide, by decide⟩

end Pegasus
